import Mathlib

/-!
Shallow embedding of `remote_import/remote_importer.py`: a Python meta-path
finder/loader that resolves dotted module names to source files hosted on a
remote filesystem (HTTP, S3, ...), fetches their source, and loads them.

Strings are modelled as Lean `String`s; the character-level operations the
source performs through Python's `re` / `str` / `posixpath` primitives are
embedded as executable functions over `List Char` so every definition can be
evaluated by the kernel on concrete inputs.
-/

/-! ### Character-level string helpers (Python `str` semantics) -/

/-- Python `needle in hay` prefix part: `hay.startswith(needle)`. -/
def listIsPref : List Char → List Char → Bool
  | [], _ => true
  | _ :: _, [] => false
  | a :: as, b :: bs => decide (a = b) && listIsPref as bs

/-- Python substring test `needle in hay`. -/
def listContainsSub (needle : List Char) : List Char → Bool
  | [] => needle.isEmpty
  | h :: t => listIsPref needle (h :: t) || listContainsSub needle t

/-- Python `needle in hay` on strings (substring containment). -/
def strContains (hay needle : String) : Bool :=
  listContainsSub needle.data hay.data

/-- Python `s.split(sep)` for a one-character separator: keeps empty parts,
`"".split(sep) == [""]`. -/
def pySplit (sep : Char) : List Char → List (List Char)
  | [] => [[]]
  | c :: rest =>
    let r := pySplit sep rest
    if c = sep then [] :: r
    else
      match r with
      | h :: t => (c :: h) :: t
      | [] => [[c]]

/-- Python `sep.join(parts)` for a one-character separator. -/
def pyJoin (sep : Char) : List (List Char) → List Char
  | [] => []
  | [x] => x
  | x :: xs => x ++ sep :: pyJoin sep xs

/-- Python `s.replace('.', '/')`: one-character pattern and replacement,
so a plain character map. -/
def pyReplaceChar (pat repl : Char) (l : List Char) : List Char :=
  l.map (fun c => if c = pat then repl else c)

/-! ### `sanitize_url`

`re.sub(r"([^:]/)(/)+", r"\1", url)`: scanning left to right, a match is a
non-colon character, a slash, and a maximal non-empty run of further slashes;
group 2 (the run) is dropped and scanning resumes after the match.  Embedded
as a left-to-right scan; `skip = true` means the scanner is inside the
`(/)+` group of the current match, consuming its slashes one at a time. -/

def sanitizeScan : Bool → List Char → List Char
  | _, [] => []
  | skip, [c] =>
    if skip = true ∧ c = '/' then [] else [c]
  | skip, [c, d] =>
    if skip = true ∧ c = '/' then
      if d = '/' then [] else [d]
    else [c, d]
  | skip, c :: d :: e :: rest =>
    if skip = true ∧ c = '/' then sanitizeScan true (d :: e :: rest)
    else if c ≠ ':' ∧ d = '/' ∧ e = '/' then c :: '/' :: sanitizeScan true rest
    else c :: sanitizeScan false (d :: e :: rest)

def sanitize_url (url : String) : String :=
  ⟨sanitizeScan false url.data⟩

/-! ### `os.path.normpath` (POSIX flavour, as CPython implements it) -/

def normpathChars (path : List Char) : List Char :=
  if path = [] then ['.']
  else
    let initialSlashes : Nat :=
      if listIsPref ['/'] path then
        if listIsPref ['/', '/'] path ∧ ¬ listIsPref ['/', '/', '/'] path = true then 2 else 1
      else 0
    let comps := pySplit '/' path
    let newComps := comps.foldl
      (fun acc comp =>
        if comp = [] ∨ comp = ['.'] then acc
        else if comp ≠ ['.', '.'] ∨ (initialSlashes = 0 ∧ acc = [])
            ∨ (acc ≠ [] ∧ acc.getLast? = some ['.', '.']) then
          acc ++ [comp]
        else if acc ≠ [] then acc.dropLast
        else acc)
      []
    let joined := List.replicate initialSlashes '/' ++ pyJoin '/' newComps
    if joined = [] then ['.'] else joined

def normpath (path : String) : String :=
  ⟨normpathChars path.data⟩

/-! ### Data model

Python exceptions raised by the embedded code, the remote filesystem
capability (`fsspec`), and the importer object. -/

/-- The exception kinds the embedded code can raise.  `moduleNotFoundError`
carries the formatted message built by the source; `unboundLocalError`
carries the name of the unbound local variable. -/
inductive PyError
  | moduleNotFoundError (msg : String)
  | unboundLocalError (var : String)
deriving DecidableEq, Repr

/-- The `fsspec` filesystem object for a namespace URL: `find` is the
recursive listing, `ls` the shallow listing, `cat` reads a URL (decoded
bytes on success, an error message on failure), `fexists` is `fs.exists`. -/
structure RemoteFS where
  find : String → List String
  ls : String → List String
  cat : String → Except String String
  fexists : String → Bool

/-- Python's `traceback.format_tb(e.__traceback__)` rendered at the raise
site; runtime introspection, modelled as a constant. -/
def tracebackText : String := "[]"

abbrev PyDict := List (String × String)

/-- `RemoteImporter.__init__` state.  `mangled_headers` / `mangled_base_url`
model the attributes `_RemoteImporter__headers` / `_RemoteImporter__base_url`
that `add_remote`'s reload branch creates through Python name mangling of
`importer.__headers` / `importer.__base_url` inside the class body; they are
distinct from `headers` / `base_url` and are never read by resolution. -/
structure RemoteImporter where
  «namespace» : String
  base_url : String
  namespace_url : String
  headers : PyDict
  extra_args : PyDict
  mangled_headers : Option PyDict
  mangled_base_url : Option String
deriving DecidableEq, Repr

/-- `self.url(full_name)`: dotted name to slash path, `os.path.normpath`,
joined to the base URL, sanitized. -/
def url_of (base_url full_name : String) : String :=
  let module_path : String := ⟨pyReplaceChar '.' '/' full_name.data⟩
  sanitize_url (base_url ++ "/" ++ normpath module_path)

/-- `RemoteImporter.__init__(namespace, base_url, headers, extra_args)`. -/
def RemoteImporter.init (ns base_url : String) (headers extra_args : PyDict) :
    RemoteImporter :=
  { «namespace» := ns
    base_url := base_url
    namespace_url := url_of base_url ns
    headers := headers
    extra_args := extra_args
    mangled_headers := none
    mangled_base_url := none }

def RemoteImporter.url (imp : RemoteImporter) (full_name : String) : String :=
  url_of imp.base_url full_name

/-- `package_files` property: union (as far as membership is concerned) of
the recursive listing `fs.find(namespace_url)` and the shallow listing
`fs.ls(namespace_url)`. -/
def RemoteImporter.package_files (imp : RemoteImporter) (fs : RemoteFS) : List String :=
  fs.find imp.namespace_url ++ fs.ls imp.namespace_url

/-- `_get_raw_source_code(url)`: `fs.cat(url).decode()`; any exception is
caught and re-raised as `ModuleNotFoundError` with a message naming the URL
and the underlying error. -/
def get_raw_source_code (fs : RemoteFS) (url : String) : Except PyError String :=
  match fs.cat url with
  | .error e =>
    .error (.moduleNotFoundError
      ("File request failed. URL: " ++ url ++ ". Error: " ++ e ++ ", "
        ++ "stack: " ++ tracebackText))
  | .ok response => .ok response

/-- The data `find_spec` leaves behind for the loader: the spec name together
with `self._full_url` and `self._raw_source_code`. -/
structure ResolvedSpec where
  name : String
  full_url : String
  raw_source_code : String
deriving DecidableEq, Repr

/-- The tail of a `find_spec` branch that claimed a candidate URL: fetch the
source (propagating the `ModuleNotFoundError` of a failed fetch) and return
the spec. -/
def fetch_spec (fs : RemoteFS) (full_name url : String) :
    Except PyError (Option ResolvedSpec) :=
  match get_raw_source_code fs url with
  | .ok src => .ok (some ⟨full_name, url, src⟩)
  | .error e => .error e

/-- `RemoteImporter.find_spec(full_name, path, target)`.  `.ok none` is the
`return None` "not my namespace" signal; `.error` is a raised exception. -/
def RemoteImporter.find_spec (imp : RemoteImporter) (fs : RemoteFS)
    (full_name : String) : Except PyError (Option ResolvedSpec) :=
  let package_name : String := ⟨(pySplit '.' full_name.data).headD []⟩
  if package_name ≠ imp.«namespace» then .ok none
  else
    let this_module_url := imp.url full_name
    let url_init := sanitize_url (this_module_url ++ "/__init__.py")
    let url_py := sanitize_url (this_module_url ++ ".py")
    let files := imp.package_files fs
    if url_init ∈ files then fetch_spec fs full_name url_init
    else if url_py ∈ files then fetch_spec fs full_name url_py
    else .ok (some ⟨full_name, this_module_url, ""⟩)

/-! ### Module loading (`create_module` / `exec_module`)

A Python module object is modelled by its attribute dict (all attributes this
program stores are strings).  `sys.modules` is an insertion-ordered map from
fully-qualified name to module dict.  Events record the observable order of
the cache insertion and of `compile` / `exec`. -/

/-- Python dict assignment `d[k] = v`: replaces in place, else appends. -/
def dictSet {α : Type} (d : List (String × α)) (k : String) (v : α) :
    List (String × α) :=
  if d.any (fun p => decide (p.1 = k)) then
    d.map (fun p => if p.1 = k then (k, v) else p)
  else d ++ [(k, v)]

/-- Python dict lookup `d[k]` / `d.get(k)`. -/
def dictGet {α : Type} (d : List (String × α)) (k : String) : Option α :=
  match d.find? (fun p => decide (p.1 = k)) with
  | some p => some p.2
  | none => none

inductive LoadEvent
  | cacheInsert (name : String)
  | compileSource
  | execSource
deriving DecidableEq, Repr

abbrev SysModules := List (String × PyDict)

/-- `RemoteImporter.create_module(spec)`: a fresh `types.ModuleType(spec.name)`
(whose dict carries `__name__`), attributes `__package__`, `__path__`,
`__url__`, `__file__`, then `sys.modules[spec.name] = module`. -/
def create_module (imp : RemoteImporter) (spec_name : String) (st : SysModules) :
    PyDict × SysModules × List LoadEvent :=
  let m : PyDict := [("__name__", spec_name)]
  let m := dictSet m "__package__" spec_name
  let m := dictSet m "__path__" imp.base_url
  let m := dictSet m "__url__" (imp.url spec_name)
  let m := dictSet m "__file__" (imp.url spec_name)
  (m, dictSet st spec_name m, [LoadEvent.cacheInsert spec_name])

/-- `RemoteImporter.exec_module(module)`: sets `module.__source__`, compiles
`self._raw_source_code`, and executes it against the module's dict.  The
effect of executing a compiled Python source on a globals dict is supplied
as `run`; the claims proved below fix only `run source = id` for the empty
source, which is how CPython's `exec` behaves on an empty program. -/
def exec_module (run : String → PyDict → PyDict) (raw_source_code : String)
    (m : PyDict) : PyDict × List LoadEvent :=
  let m := dictSet m "__source__" raw_source_code
  (run raw_source_code m, [LoadEvent.compileSource, LoadEvent.execSource])

/-- The import subsystem's load protocol for a claimed spec, as the class
docstring describes it: `create_module(spec)` then `exec_module(module)`.
`sys.modules[spec.name]` holds the same (mutable) module object throughout,
so after execution the cache entry carries the executed dict. -/
def load_module (run : String → PyDict → PyDict) (imp : RemoteImporter)
    (spec : ResolvedSpec) (st : SysModules) :
    PyDict × SysModules × List LoadEvent :=
  let c := create_module imp spec.name st
  let e := exec_module run spec.raw_source_code c.1
  (e.1, dictSet c.2.1 spec.name e.1, c.2.2 ++ e.2)

/-! ### Registration (`RemoteImporter.add_remote`) -/

/-- An entry of `sys.meta_path`: either one of this class's importers or some
other finder (which `add_remote` filters out with `isinstance`). -/
inductive MetaEntry
  | remote (imp : RemoteImporter)
  | foreign (tag : String)
deriving DecidableEq, Repr

structure SysState where
  meta_path : List MetaEntry
  sys_modules : SysModules
deriving DecidableEq, Repr

/-- The first `RemoteImporter` in `sys.meta_path` whose namespace is `ns`
(the inner `for importer in [i for i in sys.meta_path if isinstance(i,
RemoteImporter)]` loop up to its `return`). -/
def find_bound (mp : List MetaEntry) (ns : String) : Option RemoteImporter :=
  match mp with
  | [] => none
  | .remote imp :: rest =>
    if imp.«namespace» = ns then some imp else find_bound rest ns
  | .foreign _ :: rest => find_bound rest ns

/-- The reload branch's two assignments `importer.__headers = headers` and
`importer.__base_url = base_url`: by Python name mangling inside the class
body they create/overwrite `_RemoteImporter__headers` and
`_RemoteImporter__base_url` on the object. -/
def set_mangled (imp : RemoteImporter) (headers : PyDict) (base_url : String) :
    RemoteImporter :=
  { imp with mangled_headers := some headers, mangled_base_url := some base_url }

/-- The reload branch mutates the found importer object in place; the object
sitting in `sys.meta_path` is the same one, so the first chain entry bound to
`ns` now carries the mangled attributes. -/
def reload_in_chain (mp : List MetaEntry) (ns : String) (headers : PyDict)
    (base_url : String) : List MetaEntry :=
  match mp with
  | [] => []
  | .remote imp :: rest =>
    if imp.«namespace» = ns then .remote (set_mangled imp headers base_url) :: rest
    else .remote imp :: reload_in_chain rest ns headers base_url
  | .foreign t :: rest => .foreign t :: reload_in_chain rest ns headers base_url

/-- `[m for m in sys.modules if namespace in m]`: the module names the reload
branch passes to `importlib.reload`, selected by substring containment. -/
def reload_targets (ns : String) (mods : SysModules) : List String :=
  (mods.map Prod.fst).filter (fun m => strContains m ns)

/-- Observable side effects of `add_remote` beyond its state: `fs.exists`
probes of the `test_connection` check, and the `importlib.reload` calls of
the reload branch in order. -/
inductive RegEvent
  | netCheck (url : String)
  | reloadModule (name : String)
deriving DecidableEq, Repr

/-- The `for namespace in namespaces` loop of `add_remote`.  `last` is the
local variable `importer` of the enclosing function scope: assigned by the
last loop iteration that created a fresh importer, still unbound (`none`)
when the loop body never assigned it.  The `return importer` inside the
inner search loop exits the whole classmethod, which is why a hit on an
already-bound namespace abandons the remaining `namespaces`. -/
def add_remote_go (fs : RemoteFS) (base_url : String) (reload : Bool)
    (headers extra_args : PyDict) (test_connection : Bool) :
    List String → SysState → Option RemoteImporter → List RegEvent →
    (Except PyError RemoteImporter) × SysState × List RegEvent
  | [], st, last, evs =>
    match last with
    | some imp => (.ok imp, st, evs)
    | none => (.error (.unboundLocalError "importer"), st, evs)
  | ns :: rest, st, last, evs =>
    let tcUrl := sanitize_url (base_url ++ "/" ++ ns)
    let evs' := if test_connection then evs ++ [RegEvent.netCheck tcUrl] else evs
    if test_connection ∧ fs.fexists tcUrl = false then
      (.error (.moduleNotFoundError
        ("Module '" ++ ns ++ "' not found in '" ++ tcUrl ++ "'.\n"
          ++ "Check network and module name")), st, evs')
    else
      match find_bound st.meta_path ns with
      | some imp =>
        if reload then
          let imp' := set_mangled imp headers base_url
          let mp' := reload_in_chain st.meta_path ns headers base_url
          let targets := reload_targets ns st.sys_modules
          (.ok imp', ⟨mp', st.sys_modules⟩, evs' ++ targets.map RegEvent.reloadModule)
        else (.ok imp, st, evs')
      | none =>
        let imp := RemoteImporter.init ns base_url headers extra_args
        add_remote_go fs base_url reload headers extra_args test_connection
          rest ⟨.remote imp :: st.meta_path, st.sys_modules⟩ (some imp) evs'

/-- `RemoteImporter.add_remote(namespaces, base_url, reload, headers,
extra_args, test_connection)` acting on the global `sys.meta_path` /
`sys.modules` state. -/
def add_remote (fs : RemoteFS) (namespaces : List String) (base_url : String)
    (reload : Bool) (headers extra_args : PyDict) (test_connection : Bool)
    (st : SysState) : (Except PyError RemoteImporter) × SysState × List RegEvent :=
  add_remote_go fs base_url reload headers extra_args test_connection
    namespaces st none []

/-! ### Predicates used to state the sanitization claims -/

/-- Two consecutive slashes occur somewhere in the list. -/
def hasDoubleSlash : List Char → Bool
  | [] => false
  | [_] => false
  | c :: d :: rest =>
    if c = '/' ∧ d = '/' then true else hasDoubleSlash (d :: rest)

/-- No position holds a non-colon character followed by two slashes, i.e.
every remaining double slash sits at the start of the string or right after a
colon (the scheme separator). -/
def collapsedOK : List Char → Bool
  | c :: d :: e :: rest =>
    if c ≠ ':' ∧ d = '/' ∧ e = '/' then false
    else collapsedOK (d :: e :: rest)
  | _ => true

/-! ### Concrete fixtures used by witnesses and counterexamples -/

/-- A filesystem with nothing reachable: every read fails. -/
def trivialFS : RemoteFS :=
  { find := fun _ => []
    ls := fun _ => []
    cat := fun _ => .error "no network"
    fexists := fun _ => false }

/-- A namespace listing holding both candidate artifacts for `pkg`. -/
def fsBoth : RemoteFS :=
  { find := fun _ => ["http://h/pkg/__init__.py", "http://h/pkg.py"]
    ls := fun _ => []
    cat := fun u => .ok ("src of " ++ u)
    fexists := fun _ => true }

def impPkg : RemoteImporter := RemoteImporter.init "pkg" "http://h" [] []

def impOld : RemoteImporter := RemoteImporter.init "a" "http://old" [("k", "v1")] []

def stReload : SysState :=
  { meta_path := [.remote impOld]
    sys_modules := [("banana", []), ("a", []), ("z", [])] }

def stBoundA : SysState := { meta_path := [.remote impOld], sys_modules := [] }

/-! ### Dictionary lemmas -/

theorem find?_map_subst {α : Type} (k : String) (v : α) :
    ∀ d : List (String × α), d.any (fun p => decide (p.1 = k)) = true →
      (d.map (fun p => if p.1 = k then (k, v) else p)).find?
          (fun p => decide (p.1 = k)) = some (k, v)
  | [], h => by simp at h
  | a :: d, h => by
    by_cases ha : a.1 = k
    · simp [List.find?, ha]
    · have hd : d.any (fun p => decide (p.1 = k)) = true := by
        simpa [List.any_cons, ha] using h
      simpa [List.find?, ha] using find?_map_subst k v d hd

theorem find?_append_new {α : Type} (k : String) (v : α) :
    ∀ d : List (String × α), d.any (fun p => decide (p.1 = k)) = false →
      (d ++ [(k, v)]).find? (fun p => decide (p.1 = k)) = some (k, v)
  | [], _ => by simp [List.find?]
  | a :: d, h => by
    have ha : ¬ a.1 = k := by
      intro hk
      simp [List.any_cons, hk] at h
    have hd : d.any (fun p => decide (p.1 = k)) = false := by
      simpa [List.any_cons, ha] using h
    simpa [List.find?, ha] using find?_append_new k v d hd

theorem dictGet_dictSet {α : Type} (d : List (String × α)) (k : String) (v : α) :
    dictGet (dictSet d k v) k = some v := by
  unfold dictGet dictSet
  by_cases h : d.any (fun p => decide (p.1 = k)) = true
  · simp only [h, if_true, find?_map_subst k v d h]
  · have h' := eq_false_of_ne_true h
    simp only [h', if_false, Bool.false_eq_true, find?_append_new k v d h']

/-! ### Claim theorems -/

/-- C1: whenever a resolver claims a dotted name and both the package-form
candidate `<path>/__init__.py` and the flat-module candidate `<path>.py` are
present in the namespace's file listing, `find_spec` resolves through the
package-form URL (its source is the one fetched); the flat-module form is
never chosen. -/
theorem c1_package_form_precedence (imp : RemoteImporter) (fs : RemoteFS)
    (full_name : String)
    (hclaim : (⟨(pySplit '.' full_name.data).headD []⟩ : String) = imp.«namespace»)
    (hinit : sanitize_url (imp.url full_name ++ "/__init__.py") ∈ imp.package_files fs)
    (hpy : sanitize_url (imp.url full_name ++ ".py") ∈ imp.package_files fs) :
    imp.find_spec fs full_name
      = fetch_spec fs full_name (sanitize_url (imp.url full_name ++ "/__init__.py")) := by
  unfold RemoteImporter.find_spec
  simp only [hclaim, ne_eq, not_true_eq_false, if_false, hinit, if_true]

/-- C2: the loader protocol inserts the fresh module into `sys.modules` under
its fully-qualified name (event index 0) strictly before compiling (index 1)
and executing (index 2) its source, and after `create_module` a lookup of
that name in the cache already observes the in-progress module object. -/
theorem c2_cache_insert_precedes_execution (run : String → PyDict → PyDict)
    (imp : RemoteImporter) (spec : ResolvedSpec) (st : SysModules) :
    ((load_module run imp spec st).2.2[0]? = some (.cacheInsert spec.name)
      ∧ (load_module run imp spec st).2.2[1]? = some .compileSource
      ∧ (load_module run imp spec st).2.2[2]? = some .execSource)
    ∧ dictGet (create_module imp spec.name st).2.1 spec.name
        = some (create_module imp spec.name st).1 :=
  ⟨⟨rfl, rfl, rfl⟩, dictGet_dictSet st spec.name _⟩

/-- C4: every failure of the remote read is caught and re-raised as
`ModuleNotFoundError` whose message carries the URL and the underlying
cause; a failed fetch never returns normally and never raises any other
error kind. -/
theorem c4_fetch_failure_raises_module_not_found (fs : RemoteFS) (url e : String)
    (h : fs.cat url = .error e) :
    ∃ msg : String, get_raw_source_code fs url = .error (.moduleNotFoundError msg)
      ∧ url.data <:+: msg.data ∧ e.data <:+: msg.data := by
  refine ⟨"File request failed. URL: " ++ url ++ ". Error: " ++ e ++ ", "
      ++ "stack: " ++ tracebackText, ?_, ?_, ?_⟩
  · unfold get_raw_source_code
    rw [h]
  · exact ⟨"File request failed. URL: ".data,
      (". Error: " ++ e ++ ", " ++ "stack: " ++ tracebackText).data,
      by simp [String.data_append]⟩
  · exact ⟨("File request failed. URL: " ++ url ++ ". Error: ").data,
      (", " ++ "stack: " ++ tracebackText).data,
      by simp [String.data_append]⟩

theorem c4_witness :
    trivialFS.cat "http://u" = .error "no network"
    ∧ ∃ msg : String,
        get_raw_source_code trivialFS "http://u" = .error (.moduleNotFoundError msg)
        ∧ "http://u".data <:+: msg.data ∧ "no network".data <:+: msg.data :=
  ⟨rfl, c4_fetch_failure_raises_module_not_found trivialFS "http://u" "no network" rfl⟩

/-- C6: a dotted name whose leading segment differs from the resolver's bound
namespace makes `find_spec` return the no-match signal `None`, raising no
exception, whatever the rest of the name and the filesystem. -/
theorem c6_foreign_namespace_defers (imp : RemoteImporter) (fs : RemoteFS)
    (full_name : String)
    (h : (⟨(pySplit '.' full_name.data).headD []⟩ : String) ≠ imp.«namespace») :
    imp.find_spec fs full_name = .ok none := by
  unfold RemoteImporter.find_spec
  simp only [ne_eq, h, not_false_eq_true, if_true]

theorem c6_witness :
    ((⟨(pySplit '.' "other.mod".data).headD []⟩ : String) ≠ impPkg.«namespace»)
    ∧ impPkg.find_spec trivialFS "other.mod" = .ok none :=
  ⟨by decide, c6_foreign_namespace_defers impPkg trivialFS "other.mod" (by decide)⟩

/-- C8: registering a single namespace that is already bound, with
`reload = False` (and the default `test_connection = False`), returns the
existing importer unchanged, leaves the global state untouched, and performs
no network access and no reload. -/
theorem c8_rebind_without_reload_is_noop (fs : RemoteFS) (ns base_url : String)
    (headers extra_args : PyDict) (st : SysState) (imp : RemoteImporter)
    (h : find_bound st.meta_path ns = some imp) :
    add_remote fs [ns] base_url false headers extra_args false st = (.ok imp, st, []) := by
  unfold add_remote add_remote_go
  simp only [h, Bool.false_eq_true, false_and, if_false]

theorem c8_witness :
    find_bound stBoundA.meta_path "a" = some impOld
    ∧ add_remote trivialFS ["a"] "http://base" false [] [] false stBoundA
        = (.ok impOld, stBoundA, []) :=
  ⟨rfl, c8_rebind_without_reload_is_noop trivialFS "a" "http://base" [] [] stBoundA impOld rfl⟩

/-- C10: calling `add_remote` with an empty namespace sequence never assigns
the local variable `importer`, so the trailing `return importer` raises an
unbound-local error, with the search chain and module cache left unchanged
and no side effects performed. -/
theorem c10_empty_namespaces_unbound_local (fs : RemoteFS) (base_url : String)
    (reload : Bool) (headers extra_args : PyDict) (test_connection : Bool)
    (st : SysState) :
    add_remote fs [] base_url reload headers extra_args test_connection st
      = (.error (.unboundLocalError "importer"), st, []) := rfl

theorem c1_witness :
    ((⟨(pySplit '.' "pkg".data).headD []⟩ : String) = impPkg.«namespace»
      ∧ sanitize_url (impPkg.url "pkg" ++ "/__init__.py") ∈ impPkg.package_files fsBoth
      ∧ sanitize_url (impPkg.url "pkg" ++ ".py") ∈ impPkg.package_files fsBoth)
    ∧ impPkg.find_spec fsBoth "pkg"
        = fetch_spec fsBoth "pkg" (sanitize_url (impPkg.url "pkg" ++ "/__init__.py")) :=
  ⟨⟨by decide, by decide, by decide⟩,
    c1_package_form_precedence impPkg fsBoth "pkg" (by decide) (by decide) (by decide)⟩

/-! ### Sanitization: the scan leaves no collapsible run -/

theorem sanitizeScan_false_head (c : Char) (l : List Char) :
    ∃ t, sanitizeScan false (c :: l) = c :: t := by
  match l with
  | [] => exact ⟨[], by simp [sanitizeScan]⟩
  | [d] => exact ⟨[d], by simp [sanitizeScan]⟩
  | d :: e :: rest =>
    by_cases h : c ≠ ':' ∧ d = '/' ∧ e = '/'
    · exact ⟨'/' :: sanitizeScan true rest, by simp [sanitizeScan, h]⟩
    · exact ⟨sanitizeScan false (d :: e :: rest), by simp [sanitizeScan, h]⟩

theorem sanitizeScan_true_head_ne_slash :
    ∀ (l : List Char) (a : Char) (t : List Char),
      sanitizeScan true l = a :: t → a ≠ '/'
  | [], a, t, h => by simp [sanitizeScan] at h
  | [c], a, t, h => by
    by_cases hc : c = '/'
    · simp [sanitizeScan, hc] at h
    · have : c = a ∧ [] = t := by simpa [sanitizeScan, hc] using h
      exact this.1 ▸ hc
  | [c, d], a, t, h => by
    by_cases hc : c = '/'
    · by_cases hd : d = '/'
      · simp [sanitizeScan, hc, hd] at h
      · have : d = a ∧ [] = t := by simpa [sanitizeScan, hc, hd] using h
        exact this.1 ▸ hd
    · have : c = a ∧ [d] = t := by simpa [sanitizeScan, hc] using h
      exact this.1 ▸ hc
  | c :: d :: e :: rest, a, t, h => by
    by_cases hc : c = '/'
    · have h' : sanitizeScan true (d :: e :: rest) = a :: t := by
        simpa [sanitizeScan, hc] using h
      exact sanitizeScan_true_head_ne_slash (d :: e :: rest) a t h'
    · by_cases hm : c ≠ ':' ∧ d = '/' ∧ e = '/'
      · have : c = a ∧ '/' :: sanitizeScan true rest = t := by
          simpa [sanitizeScan, hc, hm] using h
        exact this.1 ▸ hc
      · have : c = a ∧ sanitizeScan false (d :: e :: rest) = t := by
          simpa [sanitizeScan, hc, hm] using h
        exact this.1 ▸ hc

theorem sanitizeScan_false_double (d e : Char) (rest : List Char) (r : List Char)
    (h : sanitizeScan false (d :: e :: rest) = '/' :: '/' :: r) :
    d = '/' ∧ e = '/' := by
  match rest with
  | [] =>
    have h' : d = '/' ∧ e = '/' ∧ [] = r := by simpa [sanitizeScan] using h
    exact ⟨h'.1, h'.2.1⟩
  | f :: rest' =>
    by_cases hm : d ≠ ':' ∧ e = '/' ∧ f = '/'
    · have h' : d = '/' ∧ sanitizeScan true rest' = r := by
        simpa [sanitizeScan, hm] using h
      exact ⟨h'.1, hm.2.1⟩
    · have h' : d = '/' ∧ sanitizeScan false (e :: f :: rest') = '/' :: r := by
        simpa [sanitizeScan, hm] using h
      obtain ⟨t, ht⟩ := sanitizeScan_false_head e (f :: rest')
      rw [ht] at h'
      exact ⟨h'.1, List.head_eq_of_cons_eq h'.2⟩

theorem collapsedOK_cons (c : Char) (l : List Char) (h : collapsedOK l = true)
    (h2 : ∀ r, l = '/' :: '/' :: r → c = ':') : collapsedOK (c :: l) = true := by
  match l with
  | [] => rfl
  | [d] => rfl
  | d :: e :: rest =>
    by_cases hc : c ≠ ':' ∧ d = '/' ∧ e = '/'
    · exact absurd (h2 rest (by rw [hc.2.1, hc.2.2])) hc.1
    · simpa [collapsedOK, hc] using h

theorem sanitize_collapses : ∀ (skip : Bool) (l : List Char),
    collapsedOK (sanitizeScan skip l) = true
  | _, [] => rfl
  | _, [_] => by
    unfold sanitizeScan
    split <;> rfl
  | _, [_, _] => by
    unfold sanitizeScan
    split
    · split <;> rfl
    · rfl
  | skip, c :: d :: e :: rest => by
    by_cases hs : skip = true ∧ c = '/'
    · rw [show sanitizeScan skip (c :: d :: e :: rest)
          = sanitizeScan true (d :: e :: rest) from by simp [sanitizeScan, hs]]
      exact sanitize_collapses true (d :: e :: rest)
    · by_cases hm : c ≠ ':' ∧ d = '/' ∧ e = '/'
      · rw [show sanitizeScan skip (c :: d :: e :: rest)
            = c :: '/' :: sanitizeScan true rest from by simp [sanitizeScan, hs, hm]]
        apply collapsedOK_cons
        · apply collapsedOK_cons '/' _ (sanitize_collapses true rest)
          intro r hr
          exact absurd rfl (sanitizeScan_true_head_ne_slash rest '/' ('/' :: r) hr)
        · intro r hr
          have hr' : sanitizeScan true rest = '/' :: r := List.tail_eq_of_cons_eq hr
          exact absurd rfl (sanitizeScan_true_head_ne_slash rest '/' r hr')
      · rw [show sanitizeScan skip (c :: d :: e :: rest)
            = c :: sanitizeScan false (d :: e :: rest) from by simp [sanitizeScan, hs, hm]]
        apply collapsedOK_cons c _ (sanitize_collapses false (d :: e :: rest))
        intro r hr
        obtain ⟨hd, he⟩ := sanitizeScan_false_double d e rest r hr
        by_contra hcne
        exact hm ⟨hcne, hd, he⟩

/-- C5 counterexample: `"//a"` contains no colon (hence no scheme
double-slash), yet sanitization leaves its leading double slash intact, so
the universal "every run of repeated slashes is collapsed to one" part of the
claim is false as stated. -/
theorem c5_counterexample :
    sanitize_url "//a" = "//a"
    ∧ hasDoubleSlash (sanitize_url "//a").data = true
    ∧ ':' ∉ "//a".data :=
  ⟨rfl, rfl, by decide⟩

/-- C5 (amended): the bit-exact example holds, and in every sanitized string
any surviving double slash sits either at the very start of the string or
immediately after a colon (the scheme separator); every run of repeated
slashes preceded by a non-colon character is collapsed to a single slash. -/
theorem c5_sanitize_collapses_runs :
    sanitize_url "http://host//a//b.py" = "http://host/a/b.py"
    ∧ ∀ url : String, collapsedOK (sanitize_url url).data = true :=
  ⟨rfl, fun url => sanitize_collapses false url.data⟩

/-! ### Registration lemmas -/

theorem find_bound_append (ns : String) :
    ∀ l₁ l₂ : List MetaEntry,
      find_bound (l₁ ++ l₂) ns
        = match find_bound l₁ ns with
          | some i => some i
          | none => find_bound l₂ ns
  | [], l₂ => by simp [find_bound]
  | .remote imp :: rest, l₂ => by
    by_cases h : imp.«namespace» = ns
    · simp [find_bound, h]
    · simp [find_bound, h, find_bound_append ns rest l₂]
  | .foreign t :: rest, l₂ => by
    simp [find_bound, find_bound_append ns rest l₂]

theorem find_bound_map_init (base_url : String) (headers extra_args : PyDict) :
    ∀ (L : List String), L.Nodup → ∀ ns ∈ L,
      find_bound (L.map (fun n =>
          MetaEntry.remote (RemoteImporter.init n base_url headers extra_args))) ns
        = some (RemoteImporter.init ns base_url headers extra_args)
  | [], _, ns, h => absurd h (List.not_mem_nil ns)
  | a :: L, hnd, ns, h => by
    simp only [List.map_cons, find_bound]
    by_cases ha : a = ns
    · subst ha
      simp [RemoteImporter.init]
    · have hns : ns ∈ L := by
        cases h with
        | head => exact absurd rfl ha
        | tail _ h' => exact h'
      rw [if_neg (by simpa [RemoteImporter.init] using ha)]
      exact find_bound_map_init base_url headers extra_args L
        (List.Nodup.of_cons hnd) ns hns

theorem add_remote_go_fresh (fs : RemoteFS) (base_url : String) (reload : Bool)
    (headers extra_args : PyDict) (tc : Bool) :
    ∀ (namespaces : List String) (st : SysState) (last : Option RemoteImporter)
      (evs : List RegEvent),
      namespaces.Nodup →
      (∀ ns ∈ namespaces, find_bound st.meta_path ns = none) →
      (tc = true → ∀ ns ∈ namespaces,
        fs.fexists (sanitize_url (base_url ++ "/" ++ ns)) = true) →
      (add_remote_go fs base_url reload headers extra_args tc namespaces st last evs).2.1
        = ⟨(namespaces.map (fun n =>
              MetaEntry.remote (RemoteImporter.init n base_url headers extra_args))).reverse
            ++ st.meta_path, st.sys_modules⟩
  | [], st, last, evs, _, _, _ => by
    cases last <;> rfl
  | ns :: rest, st, last, evs, hnd, hnew, htc => by
    have hcond : ¬ (tc = true ∧ fs.fexists (sanitize_url (base_url ++ "/" ++ ns)) = false) := by
      rintro ⟨htcb, hfe⟩
      rw [htc htcb ns (List.mem_cons_self ns rest)] at hfe
      exact Bool.noConfusion hfe
    have hfb : find_bound st.meta_path ns = none :=
      hnew ns (List.mem_cons_self ns rest)
    have hstep :
        add_remote_go fs base_url reload headers extra_args tc (ns :: rest) st last evs
          = add_remote_go fs base_url reload headers extra_args tc rest
              ⟨.remote (RemoteImporter.init ns base_url headers extra_args) :: st.meta_path,
                st.sys_modules⟩
              (some (RemoteImporter.init ns base_url headers extra_args))
              (if tc = true then evs ++ [RegEvent.netCheck (sanitize_url (base_url ++ "/" ++ ns))]
               else evs) := by
      rw [add_remote_go]
      simp only [hcond, if_false, hfb]
    rw [hstep]
    have hnod : ns ∉ rest := (List.nodup_cons.mp hnd).1
    have ih := add_remote_go_fresh fs base_url reload headers extra_args tc rest
      ⟨.remote (RemoteImporter.init ns base_url headers extra_args) :: st.meta_path,
        st.sys_modules⟩
      (some (RemoteImporter.init ns base_url headers extra_args))
      (if tc = true then evs ++ [RegEvent.netCheck (sanitize_url (base_url ++ "/" ++ ns))]
       else evs)
      (List.Nodup.of_cons hnd)
      (by
        intro ns' hns'
        show find_bound (.remote (RemoteImporter.init ns base_url headers extra_args)
            :: st.meta_path) ns' = none
        have hne : ns ≠ ns' := fun he => hnod (he ▸ hns')
        rw [find_bound, if_neg (by simpa [RemoteImporter.init] using hne)]
        exact hnew ns' (List.mem_cons_of_mem ns hns'))
      (fun htcb ns' hns' => htc htcb ns' (List.mem_cons_of_mem ns hns'))
    rw [ih]
    simp [List.reverse_cons, List.append_assoc]

/-- C7 counterexample: registering `["a", "b"]` when `"a"` is already bound
returns from inside the loop at `"a"`, so `"b"` — which was not previously
bound — gets no binding and the chain is left unchanged; the claim that
every not-previously-bound name in the sequence ends up bound is false. -/
theorem c7_counterexample :
    add_remote trivialFS ["a", "b"] "http://base" false [] [] false stBoundA
      = (.ok impOld, stBoundA, [])
    ∧ find_bound stBoundA.meta_path "b" = none :=
  ⟨rfl, rfl⟩

/-- C7 (amended): when the namespace sequence is duplicate-free and none of
its names is already bound (and any reachability probe succeeds), every name
in the sequence ends up bound, and the new bindings are pushed one by one
onto the front of the search chain, newest first. -/
theorem c7_fresh_names_all_registered_at_front (fs : RemoteFS)
    (namespaces : List String) (base_url : String) (reload : Bool)
    (headers extra_args : PyDict) (tc : Bool) (st : SysState)
    (hnd : namespaces.Nodup)
    (hnew : ∀ ns ∈ namespaces, find_bound st.meta_path ns = none)
    (htc : tc = true → ∀ ns ∈ namespaces,
      fs.fexists (sanitize_url (base_url ++ "/" ++ ns)) = true) :
    (add_remote fs namespaces base_url reload headers extra_args tc st).2.1.meta_path
      = (namespaces.map (fun n =>
          MetaEntry.remote (RemoteImporter.init n base_url headers extra_args))).reverse
        ++ st.meta_path
    ∧ ∀ ns ∈ namespaces,
        find_bound
          (add_remote fs namespaces base_url reload headers extra_args tc st).2.1.meta_path ns
          = some (RemoteImporter.init ns base_url headers extra_args) := by
  have hmain := add_remote_go_fresh fs base_url reload headers extra_args tc
    namespaces st none [] hnd hnew htc
  rw [add_remote, hmain]
  refine ⟨rfl, ?_⟩
  intro ns hns
  rw [find_bound_append]
  rw [show (namespaces.map (fun n =>
        MetaEntry.remote (RemoteImporter.init n base_url headers extra_args))).reverse
      = namespaces.reverse.map (fun n =>
        MetaEntry.remote (RemoteImporter.init n base_url headers extra_args)) from by
    rw [List.map_reverse]]
  rw [find_bound_map_init base_url headers extra_args namespaces.reverse
    (List.nodup_reverse.mpr hnd) ns (List.mem_reverse.mpr hns)]

theorem c7_witness :
    ((["x", "y"] : List String).Nodup
      ∧ (∀ ns ∈ (["x", "y"] : List String),
          find_bound (SysState.mk [] []).meta_path ns = none)
      ∧ (false = true → ∀ ns ∈ (["x", "y"] : List String),
          trivialFS.fexists (sanitize_url ("http://b" ++ "/" ++ ns)) = true))
    ∧ ((add_remote trivialFS ["x", "y"] "http://b" false [] [] false
          (SysState.mk [] [])).2.1.meta_path
        = ((["x", "y"] : List String).map (fun n =>
            MetaEntry.remote (RemoteImporter.init n "http://b" [] []))).reverse
          ++ (SysState.mk [] []).meta_path
      ∧ ∀ ns ∈ (["x", "y"] : List String),
          find_bound (add_remote trivialFS ["x", "y"] "http://b" false [] [] false
            (SysState.mk [] [])).2.1.meta_path ns
            = some (RemoteImporter.init ns "http://b" [] [])) :=
  ⟨⟨by decide, by decide, fun h => absurd h (by decide)⟩,
    c7_fresh_names_all_registered_at_front trivialFS ["x", "y"] "http://b" false
      [] [] false (SysState.mk [] []) (by decide) (by decide)
      (fun h => absurd h (by decide))⟩

/-- C3: evaluation at the failing input.  Namespace `"a"` is bound with base
URL `"http://old"` and headers `[("k", "v1")]`; the cache holds `"banana"`,
`"a"`, `"z"`.  Re-registering `"a"` with `reload=True`, new base URL
`"http://new"` and new headers `[("k", "v2")]` leaves `base_url`, `headers`
and the URLs used by resolution unchanged (the new values land only in the
name-mangled attributes), and reloads `"banana"` — whose name merely
contains `"a"` as a substring and does not lie under the namespace. -/
theorem c3_reload_failing_input :
    add_remote trivialFS ["a"] "http://new" true [("k", "v2")] [] false stReload
      = (.ok (set_mangled impOld [("k", "v2")] "http://new"),
          ⟨[.remote (set_mangled impOld [("k", "v2")] "http://new")], stReload.sys_modules⟩,
          [.reloadModule "banana", .reloadModule "a"])
    ∧ (set_mangled impOld [("k", "v2")] "http://new").base_url = "http://old"
    ∧ (set_mangled impOld [("k", "v2")] "http://new").headers = [("k", "v1")]
    ∧ (set_mangled impOld [("k", "v2")] "http://new").url "a.x" = "http://old/a/x"
    ∧ (set_mangled impOld [("k", "v2")] "http://new").mangled_base_url = some "http://new"
    ∧ ("banana" ≠ "a" ∧ listIsPref "a.".data "banana".data = false
        ∧ strContains "banana" "a" = true) :=
  ⟨rfl, rfl, rfl, rfl, rfl, by decide, rfl, rfl⟩

/-- C9: when neither candidate artifact is listed, resolution does not fail:
it yields a spec with the bare module URL and empty source, and loading it
(executing the empty program leaves the globals dict unchanged) produces a
module holding exactly its identity metadata, registered in the cache. -/
theorem c9_empty_artifact_loads_trivially (imp : RemoteImporter) (fs : RemoteFS)
    (full_name : String) (st : SysModules) (run : String → PyDict → PyDict)
    (hclaim : (⟨(pySplit '.' full_name.data).headD []⟩ : String) = imp.«namespace»)
    (hinit : sanitize_url (imp.url full_name ++ "/__init__.py") ∉ imp.package_files fs)
    (hpy : sanitize_url (imp.url full_name ++ ".py") ∉ imp.package_files fs)
    (hrun : ∀ d, run "" d = d) :
    imp.find_spec fs full_name = .ok (some ⟨full_name, imp.url full_name, ""⟩)
    ∧ (load_module run imp ⟨full_name, imp.url full_name, ""⟩ st).1
        = [("__name__", full_name), ("__package__", full_name),
            ("__path__", imp.base_url), ("__url__", imp.url full_name),
            ("__file__", imp.url full_name), ("__source__", "")]
    ∧ dictGet (load_module run imp ⟨full_name, imp.url full_name, ""⟩ st).2.1 full_name
        = some (load_module run imp ⟨full_name, imp.url full_name, ""⟩ st).1 := by
  refine ⟨?_, ?_, ?_⟩
  · unfold RemoteImporter.find_spec
    simp only [hclaim, ne_eq, not_true_eq_false, if_false, hinit, hpy, if_true]
  · show run "" (dictSet _ "__source__" "") = _
    rw [hrun]
    rfl
  · exact dictGet_dictSet _ _ _

def runTriv : String → PyDict → PyDict := fun _ d => d

theorem c9_witness :
    ((⟨(pySplit '.' "pkg.sub".data).headD []⟩ : String) = impPkg.«namespace»
      ∧ sanitize_url (impPkg.url "pkg.sub" ++ "/__init__.py") ∉ impPkg.package_files trivialFS
      ∧ sanitize_url (impPkg.url "pkg.sub" ++ ".py") ∉ impPkg.package_files trivialFS
      ∧ ∀ d : PyDict, runTriv "" d = d)
    ∧ (impPkg.find_spec trivialFS "pkg.sub"
        = .ok (some ⟨"pkg.sub", impPkg.url "pkg.sub", ""⟩)
      ∧ (load_module runTriv impPkg ⟨"pkg.sub", impPkg.url "pkg.sub", ""⟩ []).1
          = [("__name__", "pkg.sub"), ("__package__", "pkg.sub"),
              ("__path__", impPkg.base_url), ("__url__", impPkg.url "pkg.sub"),
              ("__file__", impPkg.url "pkg.sub"), ("__source__", "")]
      ∧ dictGet (load_module runTriv impPkg ⟨"pkg.sub", impPkg.url "pkg.sub", ""⟩ []).2.1
            "pkg.sub"
          = some (load_module runTriv impPkg ⟨"pkg.sub", impPkg.url "pkg.sub", ""⟩ []).1) :=
  ⟨⟨by decide, by decide, by decide, fun _ => rfl⟩,
    c9_empty_artifact_loads_trivially impPkg trivialFS "pkg.sub" [] runTriv
      (by decide) (by decide) (by decide) (fun _ => rfl)⟩
